import Mathlib

/-!
Verification of the `go-metrics-prometheus` exporter
(`prometheusmetrics.go`) against its natural-language specification.

Strings are modelled as lists of characters (`Str`), Go maps as
association lists, and `float64` values as rationals (`Rat`): every
numeric value the exporter publishes is copied verbatim from a snapshot
to a gauge or distribution sample, so no floating-point arithmetic has
to be modelled; integer-to-float conversions are exact on the ranges
exercised here, and float-to-integer conversions truncate toward zero
exactly as Go's do.

The destination (Prometheus) registry is an external collaborator.  The
exporter's interactions with it are recorded in an append-only trace of
registration events (`RegEvent`), and the two library entry points whose
behaviour the exporter's control flow depends on are embedded from the
client library's behaviour: descriptor construction fails exactly when
the supplied fully-qualified name is not a valid metric name, and
`NewConstHistogram` fails exactly when its descriptor is invalid (with
no labels involved).  The source (go-metrics) registry is likewise
external: a flush receives its current contents as an explicit list of
(name, instrument) pairs, and each instrument carries the snapshot
values its accessor methods would return at that flush.
-/

/-- Strings, modelled as lists of characters. -/
abbrev Str := List Char

/-- Coerces a Lean string literal to the character-list model. -/
def str (s : String) : Str := s.data

/-- Replaces every occurrence of the character `old` by `new`; this is
`strings.Replace(s, old, new, -1)` for one-character patterns. -/
def replaceChar (old new : Char) (s : Str) : Str :=
  s.map (fun ch => if ch = old then new else ch)

/-- Embeds `PrometheusConfig.flattenKey`: replaces space, dot, hyphen and
equals by underscore, in that order. -/
def flattenKey (key : Str) : Str :=
  let key := replaceChar ' ' '_' key
  let key := replaceChar '.' '_' key
  let key := replaceChar '-' '_' key
  replaceChar '=' '_' key

/-- The composite cache key `fmt.Sprintf("%s_%s_%s", namespace, subsystem,
name)`, built from the raw (unflattened) components. -/
def compositeKey (ns sub name : Str) : Str :=
  ns ++ str "_" ++ sub ++ str "_" ++ name

/-- Embeds `prometheus.BuildFQName` (external collaborator): joins the
non-empty components with underscores; an empty name yields the empty
string. -/
def buildFQName (ns sub name : Str) : Str :=
  if name = [] then []
  else if ns ≠ [] ∧ sub ≠ [] then ns ++ str "_" ++ sub ++ str "_" ++ name
  else if ns ≠ [] then ns ++ str "_" ++ name
  else if sub ≠ [] then sub ++ str "_" ++ name
  else name

/-- The exported identity of a gauge built by `gaugeFromNameAndValue`:
`prometheus.NewGauge` receives the flattened namespace, subsystem and
name and identifies the gauge by their fully-qualified join. -/
def gaugeFQName (ns sub name : Str) : Str :=
  buildFQName (flattenKey ns) (flattenKey sub) (flattenKey name)

/-- Whether `ch` may appear in a Prometheus metric name (`first` marks
the leading position); embeds `model.IsValidMetricName`'s per-character
test from the client library. -/
def validMetricNameChar (first : Bool) (ch : Char) : Bool :=
  ch.isAlpha || ch = '_' || ch = ':' || (!first && ch.isDigit)

/-- Embeds `model.IsValidMetricName` (external collaborator): nonempty,
leading character a letter, underscore or colon, later characters also
allowing digits. -/
def validMetricName : Str → Bool
  | [] => false
  | ch :: rest => validMetricNameChar true ch && rest.all (validMetricNameChar false)

/-- Truncation of a rational toward zero; this is Go's conversion of a
`float64` to an integer type (e.g. `time.Duration` or `uint64`) for
in-range values. -/
def ratTrunc (q : Rat) : Int :=
  q.num.tdiv (q.den : Int)

/-- Go's `uint64(i)` for an `int64` argument: reduction modulo `2^64`
into `[0, 2^64)`. -/
def goUint64OfInt (i : Int) : Nat :=
  (i % (2 : Int) ^ 64).toNat

/-- Go's `uint64(f)` for a `float64` argument: truncation toward zero,
then reduction modulo `2^64` (out-of-range conversions are
platform-dependent in Go; the claims only exercise in-range values). -/
def goUint64OfRat (q : Rat) : Nat :=
  (ratTrunc q % (2 : Int) ^ 64).toNat

/-- An immutable sample as built by `prometheus.NewConstHistogram`
(external collaborator): descriptor name and help, observation count and
sum, and cumulative bucket counts keyed by upper bound. -/
structure ConstHistogram where
  fqName : Str
  help : Str
  count : Nat
  sum : Rat
  buckets : List (Rat × Nat)
deriving DecidableEq

/-- Embeds `prometheus.NewDesc` + `prometheus.NewConstHistogram` for the
label-free case: construction fails exactly when the descriptor's
fully-qualified name is not a valid metric name; bucket contents are not
validated. -/
def newConstHistogram (fqName help : Str) (count : Nat) (sum : Rat)
    (buckets : List (Rat × Nat)) : Option ConstHistogram :=
  if validMetricName fqName then some ⟨fqName, help, count, sum, buckets⟩ else none

/-- Embeds `CustomCollector`: a registered collector holding the latest
sample; `none` is the nil zero value of the `metric` field. -/
structure CustomCollector where
  metric : Option ConstHistogram
deriving DecidableEq

/-- Embeds `CustomCollector.Collect`: sends the held metric (nil or not)
on the channel; the emitted metrics are returned as a list. -/
def CustomCollector.CollectOut (c : CustomCollector) : List (Option ConstHistogram) :=
  [c.metric]

/-- One registration performed on the destination registry
(`promRegistry.MustRegister`), recording the composite cache key it was
made for and the identity the registered collector describes: for a
gauge its flattened fully-qualified name, for a `CustomCollector` the
constant `"Dummy"` descriptor its `Describe` emits. -/
inductive RegEvent where
  | gauge (key : Str) (fqName : Str)
  | collector (key : Str) (descName : Str)
deriving DecidableEq

/-- The identity a registration presents to the destination registry;
`MustRegister` is fatal when this identity repeats. -/
def regIdentity : RegEvent → Str
  | RegEvent.gauge _ fq => fq
  | RegEvent.collector _ d => d

/-- Association-list lookup, modelling Go's `m[key]` read. -/
def mapLookup {α : Type} : List (Str × α) → Str → Option α
  | [], _ => none
  | (k, v) :: rest, key => if k = key then some v else mapLookup rest key

/-- Association-list store, modelling Go's `m[key] = v`. -/
def mapInsert {α : Type} : List (Str × α) → Str → α → List (Str × α)
  | [], key, v => [(key, v)]
  | (k, w) :: rest, key, v =>
    if k = key then (key, v) :: rest else (k, w) :: mapInsert rest key v

/-- Embeds `PrometheusConfig`: the configured namespace and subsystem,
the two caches, and the trace of registrations made on the destination
registry.  The source registry, destination registry handle and flush
interval are externalized (registry contents are passed to each flush,
registrations are recorded in `events`). -/
structure PrometheusConfig where
  nspace : Str
  subsystem : Str
  gauges : List (Str × Rat)
  histograms : List (Str × CustomCollector)
  events : List RegEvent
deriving DecidableEq

/-- Embeds `NewPrometheusProvider`: both caches start empty. -/
def NewPrometheusProvider (ns sub : Str) : PrometheusConfig :=
  { nspace := ns, subsystem := sub, gauges := [], histograms := [], events := [] }

/-- Embeds `gaugeFromNameAndValue`: on a cache miss, build a gauge from
the flattened components, register it and insert it into the cache; in
either case set the (cached) gauge's value. -/
def gaugeFromNameAndValue (c : PrometheusConfig) (name : Str) (val : Rat) :
    PrometheusConfig :=
  let key := compositeKey c.nspace c.subsystem name
  match mapLookup c.gauges key with
  | some _ => { c with gauges := mapInsert c.gauges key val }
  | none =>
    { c with gauges := mapInsert c.gauges key val,
             events := c.events ++ [RegEvent.gauge key (gaugeFQName c.nspace c.subsystem name)] }

/-- A histogram snapshot as read by `outputPrometheusHistogram`: the
count, the sum (`int64` in go-metrics), and the values
`snapshot.Percentiles([0.05, 0.1, 0.25, 0.50, 0.75, 0.9, 0.95, 0.99])`
returns, in order. -/
structure HistogramSnapshot where
  count : Int
  sum : Int
  p05 : Rat
  p10 : Rat
  p25 : Rat
  p50 : Rat
  p75 : Rat
  p90 : Rat
  p95 : Rat
  p99 : Rat
deriving DecidableEq

/-- Embeds `outputPrometheusHistogram`: on a cache miss register an empty
collector and cache it; then build a const histogram from the snapshot's
count, sum and the eight percentile values keyed by their quantiles, and
on success store it in the cached collector (silently keeping the old
sample on failure). -/
def outputPrometheusHistogram (c : PrometheusConfig) (name : Str)
    (snap : HistogramSnapshot) : PrometheusConfig :=
  let key := compositeKey c.nspace c.subsystem name
  let c1 :=
    match mapLookup c.histograms key with
    | some _ => c
    | none =>
      { c with histograms := mapInsert c.histograms key ⟨none⟩,
               events := c.events ++ [RegEvent.collector key (str "Dummy")] }
  let bucketVals : List (Rat × Nat) :=
    [(0.05, goUint64OfRat snap.p05), (0.10, goUint64OfRat snap.p10),
     (0.25, goUint64OfRat snap.p25), (0.50, goUint64OfRat snap.p50),
     (0.75, goUint64OfRat snap.p75), (0.90, goUint64OfRat snap.p90),
     (0.95, goUint64OfRat snap.p95), (0.99, goUint64OfRat snap.p99)]
  match newConstHistogram key name (goUint64OfInt snap.count) (snap.sum : Rat) bucketVals with
  | some m => { c1 with histograms := mapInsert c1.histograms key ⟨some m⟩ }
  | none => c1

/-- A meter snapshot as read by the dispatcher: `Rate1()` and
`RateMean()`. -/
structure MeterSnapshot where
  rate1 : Rat
  rateMean : Rat
deriving DecidableEq

/-- A timer snapshot as read by the dispatcher: `Rate1()`, `Mean()`,
`Min()`, `Max()` (both `int64`), and the values
`Percentiles([0.95, 0.99, 0.999])` returns, in order. -/
structure TimerSnapshot where
  rate1 : Rat
  mean : Rat
  min : Int
  max : Int
  p95 : Rat
  p99 : Rat
  p999 : Rat
deriving DecidableEq

/-- A source-registry instrument at flush time, carrying the values its
snapshot accessors return; `unsupported` stands for any go-metrics kind
outside the six cases of the dispatcher's type switch. -/
inductive Metric where
  | counter (count : Int)
  | gauge (value : Int)
  | gaugeFloat64 (value : Rat)
  | histogram (snap : HistogramSnapshot)
  | meter (snap : MeterSnapshot)
  | timer (snap : TimerSnapshot)
  | unsupported
deriving DecidableEq

/-- Embeds the body of the `Registry.Each` callback in
`UpdatePrometheusMetricsOnce`: the type switch dispatching one named
instrument. -/
def processMetric (c : PrometheusConfig) (name : Str) (m : Metric) : PrometheusConfig :=
  match m with
  | Metric.counter count => gaugeFromNameAndValue c name (count : Rat)
  | Metric.gauge value => gaugeFromNameAndValue c name (value : Rat)
  | Metric.gaugeFloat64 value => gaugeFromNameAndValue c name value
  | Metric.histogram snap => outputPrometheusHistogram c name snap
  | Metric.meter s =>
    let c := gaugeFromNameAndValue c name s.rate1
    gaugeFromNameAndValue c (name ++ str "_mean") s.rateMean
  | Metric.timer s =>
    let c := gaugeFromNameAndValue c name s.rate1
    let c := gaugeFromNameAndValue c (name ++ str "_mean") s.mean
    let c := gaugeFromNameAndValue c (name ++ str "_min") (s.min : Rat)
    let c := gaugeFromNameAndValue c (name ++ str "_max") (s.max : Rat)
    let c := gaugeFromNameAndValue c (name ++ str "_p95") ((ratTrunc s.p95 : Int) : Rat)
    let c := gaugeFromNameAndValue c (name ++ str "_p99") ((ratTrunc s.p99 : Int) : Rat)
    gaugeFromNameAndValue c (name ++ str "_p999") ((ratTrunc s.p999 : Int) : Rat)
  | Metric.unsupported => c

/-- Folds the dispatcher over a list of (name, instrument) pairs; the
contents of the source registry in iteration order. -/
def applyOps (c : PrometheusConfig) (ops : List (Str × Metric)) : PrometheusConfig :=
  ops.foldl (fun acc e => processMetric acc e.1 e.2) c

/-- Embeds `UpdatePrometheusMetricsOnce`: dispatches every pair the
source registry yields and returns `nil`. -/
def UpdatePrometheusMetricsOnce (c : PrometheusConfig)
    (registry : List (Str × Metric)) : PrometheusConfig × Option String :=
  (applyOps c registry, none)

/-- Number of gauge registrations in a trace made for a given composite
key. -/
def gaugeRegCount : List RegEvent → Str → Nat
  | [], _ => 0
  | RegEvent.gauge k _ :: rest, key =>
    (if k = key then 1 else 0) + gaugeRegCount rest key
  | RegEvent.collector _ _ :: rest, key => gaugeRegCount rest key

/-- Number of collector registrations in a trace made for a given
composite key. -/
def collRegCount : List RegEvent → Str → Nat
  | [], _ => 0
  | RegEvent.collector k _ :: rest, key =>
    (if k = key then 1 else 0) + collRegCount rest key
  | RegEvent.gauge _ _ :: rest, key => collRegCount rest key

/-- Number of registrations in a trace presenting a given identity to
the destination registry. -/
def identityCount : List RegEvent → Str → Nat
  | [], _ => 0
  | e :: rest, f => (if regIdentity e = f then 1 else 0) + identityCount rest f

/-- Whether some registration in the trace repeats the identity of an
earlier one; exactly then the fatal duplicate branch of `MustRegister`
is reached on the destination registry. -/
def duplicateIdentityReached : List RegEvent → Bool
  | [] => false
  | e :: rest => rest.any (fun e2 => regIdentity e2 = regIdentity e) ||
      duplicateIdentityReached rest

@[simp]
theorem mapLookup_nil {α : Type} (key : Str) : mapLookup ([] : List (Str × α)) key = none := rfl

@[simp]
theorem mapLookup_insert_self {α : Type} (m : List (Str × α)) (key : Str) (v : α) :
    mapLookup (mapInsert m key v) key = some v := by
  induction m with
  | nil => simp [mapInsert, mapLookup]
  | cons hd tl ih =>
    obtain ⟨k, w⟩ := hd
    by_cases h : k = key <;> simp [mapInsert, mapLookup, h, ih]

theorem mapLookup_insert_ne {α : Type} (m : List (Str × α)) (key k : Str) (v : α)
    (h : k ≠ key) : mapLookup (mapInsert m key v) k = mapLookup m k := by
  induction m with
  | nil => simp [mapInsert, mapLookup, Ne.symm h]
  | cons hd tl ih =>
    obtain ⟨k', w⟩ := hd
    by_cases h' : k' = key
    · subst h'
      simp [mapInsert, mapLookup, Ne.symm h]
    · simp only [mapInsert, if_neg h']
      by_cases h'' : k' = k <;> simp [mapLookup, h'', ih]

theorem mapLookup_insert_isSome {α : Type} (m : List (Str × α)) (key k : Str) (v : α) :
    (mapLookup (mapInsert m key v) k).isSome =
      if k = key then true else (mapLookup m k).isSome := by
  by_cases h : k = key
  · subst h; simp
  · simp [h, mapLookup_insert_ne m key k v h]

theorem mapInsert_length_of_none {α : Type} (m : List (Str × α)) (key : Str) (v : α)
    (h : mapLookup m key = none) : (mapInsert m key v).length = m.length + 1 := by
  induction m with
  | nil => simp [mapInsert]
  | cons hd tl ih =>
    obtain ⟨k, w⟩ := hd
    by_cases h' : k = key
    · simp [mapLookup, h'] at h
    · simp only [mapLookup, if_neg h'] at h
      simp [mapInsert, h', ih h]

@[simp]
theorem gaugeRegCount_nil (key : Str) : gaugeRegCount [] key = 0 := rfl

@[simp]
theorem collRegCount_nil (key : Str) : collRegCount [] key = 0 := rfl

theorem gaugeRegCount_append (a b : List RegEvent) (key : Str) :
    gaugeRegCount (a ++ b) key = gaugeRegCount a key + gaugeRegCount b key := by
  induction a with
  | nil => simp
  | cons e rest ih =>
    cases e <;> simp [gaugeRegCount, ih] <;> omega

theorem collRegCount_append (a b : List RegEvent) (key : Str) :
    collRegCount (a ++ b) key = collRegCount a key + collRegCount b key := by
  induction a with
  | nil => simp
  | cons e rest ih =>
    cases e <;> simp [collRegCount, ih] <;> omega

@[simp]
theorem gaugeRegCount_gauge_single (k fq key : Str) :
    gaugeRegCount [RegEvent.gauge k fq] key = if k = key then 1 else 0 := by
  simp [gaugeRegCount]

@[simp]
theorem gaugeRegCount_coll_single (k d key : Str) :
    gaugeRegCount [RegEvent.collector k d] key = 0 := by
  simp [gaugeRegCount]

@[simp]
theorem collRegCount_coll_single (k d key : Str) :
    collRegCount [RegEvent.collector k d] key = if k = key then 1 else 0 := by
  simp [collRegCount]

@[simp]
theorem collRegCount_gauge_single (k fq key : Str) :
    collRegCount [RegEvent.gauge k fq] key = 0 := by
  simp [collRegCount]

@[simp]
theorem gaugeFromNameAndValue_nspace (c : PrometheusConfig) (name : Str) (val : Rat) :
    (gaugeFromNameAndValue c name val).nspace = c.nspace := by
  cases h : mapLookup c.gauges (compositeKey c.nspace c.subsystem name) <;>
    simp [gaugeFromNameAndValue, h]

@[simp]
theorem gaugeFromNameAndValue_subsystem (c : PrometheusConfig) (name : Str) (val : Rat) :
    (gaugeFromNameAndValue c name val).subsystem = c.subsystem := by
  cases h : mapLookup c.gauges (compositeKey c.nspace c.subsystem name) <;>
    simp [gaugeFromNameAndValue, h]

@[simp]
theorem gaugeFromNameAndValue_histograms (c : PrometheusConfig) (name : Str) (val : Rat) :
    (gaugeFromNameAndValue c name val).histograms = c.histograms := by
  cases h : mapLookup c.gauges (compositeKey c.nspace c.subsystem name) <;>
    simp [gaugeFromNameAndValue, h]

@[simp]
theorem outputPrometheusHistogram_nspace (c : PrometheusConfig) (name : Str)
    (snap : HistogramSnapshot) :
    (outputPrometheusHistogram c name snap).nspace = c.nspace := by
  unfold outputPrometheusHistogram
  dsimp only
  split
  · split <;> rfl
  · split <;> rfl

@[simp]
theorem outputPrometheusHistogram_subsystem (c : PrometheusConfig) (name : Str)
    (snap : HistogramSnapshot) :
    (outputPrometheusHistogram c name snap).subsystem = c.subsystem := by
  unfold outputPrometheusHistogram
  dsimp only
  split
  · split <;> rfl
  · split <;> rfl

@[simp]
theorem outputPrometheusHistogram_gauges (c : PrometheusConfig) (name : Str)
    (snap : HistogramSnapshot) :
    (outputPrometheusHistogram c name snap).gauges = c.gauges := by
  unfold outputPrometheusHistogram
  dsimp only
  split
  · split <;> rfl
  · split <;> rfl

theorem gaugeFromNameAndValue_miss (c : PrometheusConfig) (name : Str) (val : Rat)
    (h : mapLookup c.gauges (compositeKey c.nspace c.subsystem name) = none) :
    gaugeFromNameAndValue c name val =
      { c with gauges := mapInsert c.gauges (compositeKey c.nspace c.subsystem name) val,
               events := c.events ++ [RegEvent.gauge (compositeKey c.nspace c.subsystem name)
                 (gaugeFQName c.nspace c.subsystem name)] } := by
  simp [gaugeFromNameAndValue, h]

theorem gaugeFromNameAndValue_hit (c : PrometheusConfig) (name : Str) (val : Rat) (w : Rat)
    (h : mapLookup c.gauges (compositeKey c.nspace c.subsystem name) = some w) :
    gaugeFromNameAndValue c name val =
      { c with gauges := mapInsert c.gauges (compositeKey c.nspace c.subsystem name) val } := by
  simp [gaugeFromNameAndValue, h]

theorem gaugeFromNameAndValue_lookup_self (c : PrometheusConfig) (name : Str) (val : Rat) :
    mapLookup (gaugeFromNameAndValue c name val).gauges
      (compositeKey c.nspace c.subsystem name) = some val := by
  cases h : mapLookup c.gauges (compositeKey c.nspace c.subsystem name) <;>
    simp [gaugeFromNameAndValue, h]

theorem gaugeFromNameAndValue_lookup_ne (c : PrometheusConfig) (name : Str) (val : Rat)
    (k : Str) (h : k ≠ compositeKey c.nspace c.subsystem name) :
    mapLookup (gaugeFromNameAndValue c name val).gauges k = mapLookup c.gauges k := by
  cases hl : mapLookup c.gauges (compositeKey c.nspace c.subsystem name) <;>
    simp [gaugeFromNameAndValue, hl, mapLookup_insert_ne _ _ _ _ h]

theorem gaugeFromNameAndValue_events_hit (c : PrometheusConfig) (name : Str) (val : Rat)
    (h : (mapLookup c.gauges (compositeKey c.nspace c.subsystem name)).isSome = true) :
    (gaugeFromNameAndValue c name val).events = c.events := by
  cases hl : mapLookup c.gauges (compositeKey c.nspace c.subsystem name)
  · rw [hl] at h; simp at h
  · simp [gaugeFromNameAndValue, hl]

theorem gaugeFromNameAndValue_events_miss (c : PrometheusConfig) (name : Str) (val : Rat)
    (h : mapLookup c.gauges (compositeKey c.nspace c.subsystem name) = none) :
    (gaugeFromNameAndValue c name val).events =
      c.events ++ [RegEvent.gauge (compositeKey c.nspace c.subsystem name)
        (gaugeFQName c.nspace c.subsystem name)] := by
  simp [gaugeFromNameAndValue, h]

theorem gaugeFromNameAndValue_length (c : PrometheusConfig) (name : Str) (val : Rat)
    (h : mapLookup c.gauges (compositeKey c.nspace c.subsystem name) = none) :
    (gaugeFromNameAndValue c name val).gauges.length = c.gauges.length + 1 := by
  rw [gaugeFromNameAndValue_miss c name val h]
  exact mapInsert_length_of_none _ _ _ h

/-- The bucket list `outputPrometheusHistogram` passes to
`NewConstHistogram`: the eight quantiles paired with the `uint64`
conversions of the snapshot's percentile values. -/
def histBuckets (snap : HistogramSnapshot) : List (Rat × Nat) :=
  [(0.05, goUint64OfRat snap.p05), (0.10, goUint64OfRat snap.p10),
   (0.25, goUint64OfRat snap.p25), (0.50, goUint64OfRat snap.p50),
   (0.75, goUint64OfRat snap.p75), (0.90, goUint64OfRat snap.p90),
   (0.95, goUint64OfRat snap.p95), (0.99, goUint64OfRat snap.p99)]

theorem outputPrometheusHistogram_valid (c : PrometheusConfig) (name : Str)
    (snap : HistogramSnapshot)
    (hv : validMetricName (compositeKey c.nspace c.subsystem name) = true) :
    mapLookup (outputPrometheusHistogram c name snap).histograms
      (compositeKey c.nspace c.subsystem name) =
      some ⟨some ⟨compositeKey c.nspace c.subsystem name, name,
        goUint64OfInt snap.count, (snap.sum : Rat), histBuckets snap⟩⟩ := by
  cases hl : mapLookup c.histograms (compositeKey c.nspace c.subsystem name) <;>
    simp [outputPrometheusHistogram, hl, newConstHistogram, hv, histBuckets]

theorem outputPrometheusHistogram_invalid_hit (c : PrometheusConfig) (name : Str)
    (snap : HistogramSnapshot) (h : CustomCollector)
    (hl : mapLookup c.histograms (compositeKey c.nspace c.subsystem name) = some h)
    (hv : validMetricName (compositeKey c.nspace c.subsystem name) = false) :
    outputPrometheusHistogram c name snap = c := by
  simp [outputPrometheusHistogram, hl, newConstHistogram, hv]

theorem outputPrometheusHistogram_invalid_miss (c : PrometheusConfig) (name : Str)
    (snap : HistogramSnapshot)
    (hl : mapLookup c.histograms (compositeKey c.nspace c.subsystem name) = none)
    (hv : validMetricName (compositeKey c.nspace c.subsystem name) = false) :
    outputPrometheusHistogram c name snap =
      { c with histograms := mapInsert c.histograms
                 (compositeKey c.nspace c.subsystem name) ⟨none⟩,
               events := c.events ++ [RegEvent.collector
                 (compositeKey c.nspace c.subsystem name) (str "Dummy")] } := by
  simp [outputPrometheusHistogram, hl, newConstHistogram, hv]

theorem outputPrometheusHistogram_events_hit (c : PrometheusConfig) (name : Str)
    (snap : HistogramSnapshot)
    (h : (mapLookup c.histograms (compositeKey c.nspace c.subsystem name)).isSome = true) :
    (outputPrometheusHistogram c name snap).events = c.events := by
  cases hl : mapLookup c.histograms (compositeKey c.nspace c.subsystem name)
  · rw [hl] at h; simp at h
  · cases hc : newConstHistogram (compositeKey c.nspace c.subsystem name) name
      (goUint64OfInt snap.count) (snap.sum : Rat) (histBuckets snap) <;>
      · simp only [histBuckets] at hc
        simp [outputPrometheusHistogram, hl, hc]

/-- The lockstep invariant tying the destination-registry registration
trace to the two caches: a key has been registered as a gauge
(collector) exactly when it is present in the gauge (histogram)
cache. -/
def Lockstep (c : PrometheusConfig) : Prop :=
  ∀ key : Str,
    gaugeRegCount c.events key = (if (mapLookup c.gauges key).isSome then 1 else 0) ∧
    collRegCount c.events key = (if (mapLookup c.histograms key).isSome then 1 else 0)

theorem lockstep_init (ns sub : Str) : Lockstep (NewPrometheusProvider ns sub) := by
  intro key
  simp [NewPrometheusProvider, gaugeRegCount, collRegCount]

theorem lockstep_gauge_step (c : PrometheusConfig) (name : Str) (val : Rat)
    (inv : Lockstep c) : Lockstep (gaugeFromNameAndValue c name val) := by
  intro key
  cases hl : mapLookup c.gauges (compositeKey c.nspace c.subsystem name)
  · rw [gaugeFromNameAndValue_miss c name val hl]
    dsimp only
    rw [gaugeRegCount_append, collRegCount_append]
    by_cases h : key = compositeKey c.nspace c.subsystem name
    · subst h
      have h0 := (inv (compositeKey c.nspace c.subsystem name)).1
      rw [hl] at h0
      simp [h0, (inv (compositeKey c.nspace c.subsystem name)).2]
    · simp [Ne.symm h, mapLookup_insert_ne _ _ _ _ h, (inv key).1, (inv key).2]
  · rw [gaugeFromNameAndValue_hit c name val _ hl]
    dsimp only
    by_cases h : key = compositeKey c.nspace c.subsystem name
    · subst h
      have h1 := (inv (compositeKey c.nspace c.subsystem name)).1
      rw [hl] at h1
      simp [h1, (inv (compositeKey c.nspace c.subsystem name)).2]
    · simp [mapLookup_insert_ne _ _ _ _ h, (inv key).1, (inv key).2]

theorem outputPrometheusHistogram_events_eq (c : PrometheusConfig) (name : Str)
    (snap : HistogramSnapshot) :
    (outputPrometheusHistogram c name snap).events =
      if (mapLookup c.histograms (compositeKey c.nspace c.subsystem name)).isSome then
        c.events
      else
        c.events ++ [RegEvent.collector (compositeKey c.nspace c.subsystem name)
          (str "Dummy")] := by
  cases hl : mapLookup c.histograms (compositeKey c.nspace c.subsystem name) <;>
    cases hc : newConstHistogram (compositeKey c.nspace c.subsystem name) name
      (goUint64OfInt snap.count) (snap.sum : Rat) (histBuckets snap) <;>
    · simp only [histBuckets] at hc
      simp [outputPrometheusHistogram, hl, hc]

theorem outputPrometheusHistogram_lookup_isSome (c : PrometheusConfig) (name : Str)
    (snap : HistogramSnapshot) (k : Str) :
    (mapLookup (outputPrometheusHistogram c name snap).histograms k).isSome =
      if k = compositeKey c.nspace c.subsystem name then true
      else (mapLookup c.histograms k).isSome := by
  cases hl : mapLookup c.histograms (compositeKey c.nspace c.subsystem name) <;>
    cases hc : newConstHistogram (compositeKey c.nspace c.subsystem name) name
      (goUint64OfInt snap.count) (snap.sum : Rat) (histBuckets snap) <;>
    · simp only [histBuckets] at hc
      by_cases h : k = compositeKey c.nspace c.subsystem name
      · subst h
        simp [outputPrometheusHistogram, hl, hc, mapLookup_insert_isSome]
      · simp [outputPrometheusHistogram, hl, hc, h, mapLookup_insert_ne _ _ _ _ h]

theorem lockstep_hist_step (c : PrometheusConfig) (name : Str) (snap : HistogramSnapshot)
    (inv : Lockstep c) : Lockstep (outputPrometheusHistogram c name snap) := by
  intro key
  rw [outputPrometheusHistogram_events_eq, outputPrometheusHistogram_gauges,
    outputPrometheusHistogram_lookup_isSome]
  cases hl : mapLookup c.histograms (compositeKey c.nspace c.subsystem name)
  · simp only [hl, Option.isSome_none, Bool.false_eq_true, if_false]
    rw [gaugeRegCount_append, collRegCount_append]
    by_cases h : key = compositeKey c.nspace c.subsystem name
    · subst h
      have h0 := (inv (compositeKey c.nspace c.subsystem name)).2
      rw [hl] at h0
      simp [h0, (inv (compositeKey c.nspace c.subsystem name)).1]
    · simp [Ne.symm h, h, (inv key).1, (inv key).2]
  · simp only [hl, Option.isSome_some, if_true]
    by_cases h : key = compositeKey c.nspace c.subsystem name
    · subst h
      have h0 := (inv (compositeKey c.nspace c.subsystem name)).2
      rw [hl] at h0
      simp [h0, (inv (compositeKey c.nspace c.subsystem name)).1]
    · simp [h, (inv key).1, (inv key).2]

theorem lockstep_process (c : PrometheusConfig) (name : Str) (m : Metric)
    (inv : Lockstep c) : Lockstep (processMetric c name m) := by
  cases m <;> simp only [processMetric] <;>
    first
    | exact inv
    | exact lockstep_gauge_step _ _ _ inv
    | exact lockstep_hist_step _ _ _ inv
    | exact lockstep_gauge_step _ _ _ (lockstep_gauge_step _ _ _ inv)
    | exact lockstep_gauge_step _ _ _ (lockstep_gauge_step _ _ _ (lockstep_gauge_step _ _ _
        (lockstep_gauge_step _ _ _ (lockstep_gauge_step _ _ _ (lockstep_gauge_step _ _ _
          (lockstep_gauge_step _ _ _ inv))))))

theorem lockstep_applyOps (c : PrometheusConfig) (ops : List (Str × Metric))
    (inv : Lockstep c) : Lockstep (applyOps c ops) := by
  induction ops generalizing c with
  | nil => exact inv
  | cons e rest ih => exact ih _ (lockstep_process _ _ _ inv)

theorem lockstep_reachable (ns sub : Str) (ops : List (Str × Metric)) :
    Lockstep (applyOps (NewPrometheusProvider ns sub) ops) :=
  lockstep_applyOps _ _ (lockstep_init ns sub)

/-- The specification's characterization of flattening, stated per
character: exactly space, dot, hyphen and equals become underscore,
every other character is unchanged. -/
def flattenChar (ch : Char) : Char :=
  if ch = ' ' ∨ ch = '.' ∨ ch = '-' ∨ ch = '=' then '_' else ch

theorem flattenKey_eq_map (s : Str) : flattenKey s = s.map flattenChar := by
  unfold flattenKey replaceChar
  rw [List.map_map, List.map_map, List.map_map]
  refine List.map_congr_left ?_
  intro ch _
  by_cases h1 : ch = ' '
  · subst h1; decide
  · by_cases h2 : ch = '.'
    · subst h2; decide
    · by_cases h3 : ch = '-'
      · subst h3; decide
      · by_cases h4 : ch = '='
        · subst h4; decide
        · simp [Function.comp, h1, h2, h3, h4, flattenChar]

theorem flattenChar_not_special (ch : Char) :
    (flattenChar ch ≠ ' ' ∧ flattenChar ch ≠ '.' ∧ flattenChar ch ≠ '-' ∧
      flattenChar ch ≠ '=') := by
  unfold flattenChar
  by_cases h : ch = ' ' ∨ ch = '.' ∨ ch = '-' ∨ ch = '='
  · rw [if_pos h]
    refine ⟨by decide, by decide, by decide, by decide⟩
  · rw [if_neg h]
    push_neg at h
    exact ⟨h.1, h.2.1, h.2.2.1, h.2.2.2⟩

theorem flattenChar_idem (ch : Char) : flattenChar (flattenChar ch) = flattenChar ch := by
  have h := flattenChar_not_special ch
  unfold flattenChar
  by_cases hs : ch = ' ' ∨ ch = '.' ∨ ch = '-' ∨ ch = '=' <;> simp [hs]

theorem compositeKey_inj (ns sub a b : Str)
    (h : compositeKey ns sub a = compositeKey ns sub b) : a = b :=
  List.append_cancel_left h

theorem compositeKey_ne_suffix (ns sub nm sfx : Str) (h : sfx ≠ []) :
    compositeKey ns sub nm ≠ compositeKey ns sub (nm ++ sfx) := by
  intro hh
  have h1 : nm = nm ++ sfx := compositeKey_inj ns sub _ _ hh
  have h2 := congrArg List.length h1
  simp at h2
  exact h h2

theorem compositeKey_suffix_ne (ns sub nm s1 s2 : Str) (h : s1 ≠ s2) :
    compositeKey ns sub (nm ++ s1) ≠ compositeKey ns sub (nm ++ s2) := by
  intro hh
  exact h (List.append_cancel_left (compositeKey_inj ns sub _ _ hh))

/-- Claim C8: the key flattener replaces every occurrence of space, dot,
hyphen and equals with underscore and changes nothing else; it is total,
its output contains none of those four characters, and it is
idempotent. -/
theorem flattenKey_character_map_no_specials_idempotent (s : Str) :
    flattenKey s = s.map flattenChar ∧
    (flattenKey s).all
      (fun ch => ch != ' ' && ch != '.' && ch != '-' && ch != '=') = true ∧
    flattenKey (flattenKey s) = flattenKey s := by
  refine ⟨flattenKey_eq_map s, ?_, ?_⟩
  · rw [flattenKey_eq_map, List.all_eq_true]
    intro ch hch
    rw [List.mem_map] at hch
    obtain ⟨a, _, rfl⟩ := hch
    have h := flattenChar_not_special a
    simp only [Bool.and_eq_true, bne_iff_ne, ne_eq]
    exact ⟨⟨⟨h.1, h.2.1⟩, h.2.2.1⟩, h.2.2.2⟩
  · rw [flattenKey_eq_map s, flattenKey_eq_map (s.map flattenChar), List.map_map]
    refine List.map_congr_left ?_
    intro a _
    simpa [Function.comp] using flattenChar_idem a

/-- Claim C7: the one-shot flush returns success for every source
registry contents: it folds the kind dispatcher over all (name,
instrument) pairs in iteration order and the returned error is always
`nil`, even when an individual publish step (such as a failing sample
construction) did nothing. -/
theorem update_once_always_succeeds (c : PrometheusConfig)
    (registry extra : List (Str × Metric)) :
    (UpdatePrometheusMetricsOnce c registry).2 = none ∧
    (UpdatePrometheusMetricsOnce c registry).1 = applyOps c registry ∧
    applyOps c (registry ++ extra) = applyOps (applyOps c registry) extra := by
  refine ⟨rfl, rfl, ?_⟩
  simp [applyOps, List.foldl_append]

/-- Claim C9: an instrument whose kind falls outside the six handled
cases is silently skipped by a flush: the dispatcher returns the state
unchanged (both caches and the registration trace included) and the
flush still reports success. -/
theorem unsupported_kind_silently_skipped (c : PrometheusConfig) (nm : Str) :
    processMetric c nm Metric.unsupported = c ∧
    UpdatePrometheusMetricsOnce c [(nm, Metric.unsupported)] = (c, none) :=
  ⟨rfl, rfl⟩

/-- Claim C4: a flush writes the instrument's current value into the
destination gauge exactly, last-write-wins: publishing a counter or an
integer gauge (both dispatched through `float64` of the current value)
always leaves its destination gauge at the published value, and the
concrete increment-2 / flush / increment-13 / flush counter scenario
leaves the gauge at exactly 15 with a single registration. -/
theorem counter_flush_last_write_wins (ns sub nm : Str) (c : PrometheusConfig) (n : Int) :
    mapLookup (processMetric c nm (Metric.counter n)).gauges
      (compositeKey c.nspace c.subsystem nm) = some (n : Rat) ∧
    mapLookup (processMetric c nm (Metric.gauge n)).gauges
      (compositeKey c.nspace c.subsystem nm) = some (n : Rat) ∧
    (let c1 := (UpdatePrometheusMetricsOnce (NewPrometheusProvider ns sub)
        [(nm, Metric.counter 2)]).1
     let c2 := (UpdatePrometheusMetricsOnce c1 [(nm, Metric.counter (2 + 13))]).1
     mapLookup c2.gauges (compositeKey ns sub nm) = some 15 ∧
     gaugeRegCount c2.events (compositeKey ns sub nm) = 1) := by
  refine ⟨?_, ?_, ?_⟩
  · simpa [processMetric] using gaugeFromNameAndValue_lookup_self c nm (n : Rat)
  · simpa [processMetric] using gaugeFromNameAndValue_lookup_self c nm (n : Rat)
  · dsimp only
    simp only [UpdatePrometheusMetricsOnce, applyOps, List.foldl_cons, List.foldl_nil,
      processMetric]
    simp [gaugeFromNameAndValue, NewPrometheusProvider, mapLookup, mapInsert, gaugeRegCount]

/-- Claim C1: per composite key, the whole history of publishes registers
at most one gauge and at most one distribution collector with the
destination registry; a publish that misses the cache registers exactly
once and caches the handle, and a publish that hits the cache performs
no registration and only updates the cached handle in place. -/
theorem per_key_single_registration (ns sub : Str) (ops : List (Str × Metric)) (key : Str)
    (nm : Str) (val : Rat) (snap : HistogramSnapshot) :
    gaugeRegCount (applyOps (NewPrometheusProvider ns sub) ops).events key ≤ 1 ∧
    collRegCount (applyOps (NewPrometheusProvider ns sub) ops).events key ≤ 1 ∧
    (∀ prior : PrometheusConfig,
      (mapLookup prior.gauges (compositeKey prior.nspace prior.subsystem nm) = none →
        (gaugeFromNameAndValue prior nm val).events =
          prior.events ++ [RegEvent.gauge (compositeKey prior.nspace prior.subsystem nm)
            (gaugeFQName prior.nspace prior.subsystem nm)] ∧
        mapLookup (gaugeFromNameAndValue prior nm val).gauges
          (compositeKey prior.nspace prior.subsystem nm) = some val) ∧
      ((mapLookup prior.gauges (compositeKey prior.nspace prior.subsystem nm)).isSome = true →
        (gaugeFromNameAndValue prior nm val).events = prior.events ∧
        mapLookup (gaugeFromNameAndValue prior nm val).gauges
          (compositeKey prior.nspace prior.subsystem nm) = some val) ∧
      (mapLookup prior.histograms (compositeKey prior.nspace prior.subsystem nm) = none →
        (outputPrometheusHistogram prior nm snap).events =
          prior.events ++ [RegEvent.collector (compositeKey prior.nspace prior.subsystem nm)
            (str "Dummy")]) ∧
      ((mapLookup prior.histograms
          (compositeKey prior.nspace prior.subsystem nm)).isSome = true →
        (outputPrometheusHistogram prior nm snap).events = prior.events)) := by
  refine ⟨?_, ?_, ?_⟩
  · rw [(lockstep_reachable ns sub ops key).1]
    split <;> omega
  · rw [(lockstep_reachable ns sub ops key).2]
    split <;> omega
  · intro prior
    refine ⟨?_, ?_, ?_, ?_⟩
    · intro h
      exact ⟨gaugeFromNameAndValue_events_miss prior nm val h,
        gaugeFromNameAndValue_lookup_self prior nm val⟩
    · intro h
      exact ⟨gaugeFromNameAndValue_events_hit prior nm val h,
        gaugeFromNameAndValue_lookup_self prior nm val⟩
    · intro h
      rw [outputPrometheusHistogram_events_eq, h]
      simp
    · intro h
      exact outputPrometheusHistogram_events_hit prior nm snap h

/-- Witness for `per_key_single_registration`, applying it at the empty
state (cache-miss branches) and at a state whose caches already hold the
key (cache-hit branches). -/
theorem per_key_single_registration_witness :
    (mapLookup (NewPrometheusProvider (str "n") (str "s")).gauges
        (compositeKey (str "n") (str "s") (str "a")) = none ∧
      (gaugeFromNameAndValue (NewPrometheusProvider (str "n") (str "s")) (str "a") 5).events =
        (NewPrometheusProvider (str "n") (str "s")).events ++
          [RegEvent.gauge (compositeKey (str "n") (str "s") (str "a"))
            (gaugeFQName (str "n") (str "s") (str "a"))] ∧
      mapLookup (gaugeFromNameAndValue (NewPrometheusProvider (str "n") (str "s"))
          (str "a") 5).gauges (compositeKey (str "n") (str "s") (str "a")) = some 5) ∧
    (let prior : PrometheusConfig :=
      { nspace := str "n", subsystem := str "s",
        gauges := [(compositeKey (str "n") (str "s") (str "a"), 1)],
        histograms := [(compositeKey (str "n") (str "s") (str "a"), ⟨none⟩)],
        events := [] }
     (mapLookup prior.gauges (compositeKey (str "n") (str "s") (str "a"))).isSome = true ∧
      (gaugeFromNameAndValue prior (str "a") 5).events = prior.events ∧
      mapLookup (gaugeFromNameAndValue prior (str "a") 5).gauges
        (compositeKey (str "n") (str "s") (str "a")) = some 5) := by
  constructor
  · refine ⟨by decide, ?_⟩
    exact ((per_key_single_registration (str "n") (str "s") [] (str "a") (str "a") 5
      ⟨0, 0, 0, 0, 0, 0, 0, 0, 0, 0⟩).2.2 (NewPrometheusProvider (str "n") (str "s"))).1
      (by decide)
  · refine ⟨by decide, ?_⟩
    exact (((per_key_single_registration (str "n") (str "s") [] (str "a") (str "a") 5
      ⟨0, 0, 0, 0, 0, 0, 0, 0, 0, 0⟩).2.2 _).2.1 (by decide))

/-- Claim C3: flushing a histogram snapshots it and replaces the cached
collector's held sample by an immutable distribution whose count is the
snapshot count, whose sum is the snapshot sum, and whose buckets pair
each of the eight quantiles with the `uint64` conversion of the
corresponding percentile value, the quantile acting as the synthetic
bucket boundary (stated for sample constructions that pass the
destination library's descriptor validation). -/
theorem histogram_flush_replaces_sample (c : PrometheusConfig) (nm : Str)
    (snap : HistogramSnapshot)
    (hv : validMetricName (compositeKey c.nspace c.subsystem nm) = true) :
    mapLookup ((UpdatePrometheusMetricsOnce c [(nm, Metric.histogram snap)]).1).histograms
        (compositeKey c.nspace c.subsystem nm) =
      some ⟨some ⟨compositeKey c.nspace c.subsystem nm, nm, goUint64OfInt snap.count,
        (snap.sum : Rat),
        [(0.05, goUint64OfRat snap.p05), (0.10, goUint64OfRat snap.p10),
         (0.25, goUint64OfRat snap.p25), (0.50, goUint64OfRat snap.p50),
         (0.75, goUint64OfRat snap.p75), (0.90, goUint64OfRat snap.p90),
         (0.95, goUint64OfRat snap.p95), (0.99, goUint64OfRat snap.p99)]⟩⟩ := by
  have h := outputPrometheusHistogram_valid c nm snap hv
  simpa [UpdatePrometheusMetricsOnce, applyOps, processMetric, histBuckets] using h

/-- Witness for `histogram_flush_replaces_sample` at a concrete valid
key and snapshot. -/
theorem histogram_flush_replaces_sample_witness :
    validMetricName (compositeKey (str "n") (str "s") (str "h")) = true ∧
    mapLookup ((UpdatePrometheusMetricsOnce (NewPrometheusProvider (str "n") (str "s"))
        [(str "h", Metric.histogram ⟨100, 190, 1, 1, 1, 1, 2, 3, 5, 10⟩)]).1).histograms
        (compositeKey (str "n") (str "s") (str "h")) =
      some ⟨some ⟨compositeKey (str "n") (str "s") (str "h"), str "h", goUint64OfInt 100,
        ((190 : Int) : Rat),
        [(0.05, goUint64OfRat 1), (0.10, goUint64OfRat 1),
         (0.25, goUint64OfRat 1), (0.50, goUint64OfRat 1),
         (0.75, goUint64OfRat 2), (0.90, goUint64OfRat 3),
         (0.95, goUint64OfRat 5), (0.99, goUint64OfRat 10)]⟩⟩ :=
  ⟨by decide, histogram_flush_replaces_sample (NewPrometheusProvider (str "n") (str "s"))
    (str "h") ⟨100, 190, 1, 1, 1, 1, 2, 3, 5, 10⟩ (by decide)⟩

/-- Claim C6: when building the new distribution sample fails the
destination library's validation, the flush skips the update for that
key silently: the whole exporter state is unchanged, the previously
cached collector (and its held sample) stays visible, and no error is
surfaced. -/
theorem failed_sample_construction_skips_silently (c : PrometheusConfig) (nm : Str)
    (snap : HistogramSnapshot) (hcol : CustomCollector)
    (hl : mapLookup c.histograms (compositeKey c.nspace c.subsystem nm) = some hcol)
    (hv : validMetricName (compositeKey c.nspace c.subsystem nm) = false) :
    processMetric c nm (Metric.histogram snap) = c ∧
    mapLookup (processMetric c nm (Metric.histogram snap)).histograms
      (compositeKey c.nspace c.subsystem nm) = some hcol ∧
    UpdatePrometheusMetricsOnce c [(nm, Metric.histogram snap)] = (c, none) := by
  have h := outputPrometheusHistogram_invalid_hit c nm snap hcol hl hv
  have hp : processMetric c nm (Metric.histogram snap) = c := by
    simpa [processMetric] using h
  refine ⟨hp, ?_, ?_⟩
  · rw [hp]; exact hl
  · simp [UpdatePrometheusMetricsOnce, applyOps, hp]

/-- Witness for `failed_sample_construction_skips_silently` at a state
whose cache holds a collector with a previous sample under a key that
fails metric-name validation (the raw composite key keeps the dot of
the metric name `"a.b"`). -/
theorem failed_sample_construction_skips_silently_witness :
    (let prev : CustomCollector :=
      ⟨some ⟨str "prev", str "prev", 1, 1, []⟩⟩
     let c : PrometheusConfig :=
      { nspace := str "n", subsystem := str "s", gauges := [],
        histograms := [(compositeKey (str "n") (str "s") (str "a.b"), prev)],
        events := [] }
     mapLookup c.histograms (compositeKey (str "n") (str "s") (str "a.b")) = some prev ∧
      validMetricName (compositeKey (str "n") (str "s") (str "a.b")) = false ∧
      processMetric c (str "a.b") (Metric.histogram ⟨1, 1, 0, 0, 0, 0, 0, 0, 0, 0⟩) = c ∧
      mapLookup (processMetric c (str "a.b")
          (Metric.histogram ⟨1, 1, 0, 0, 0, 0, 0, 0, 0, 0⟩)).histograms
        (compositeKey (str "n") (str "s") (str "a.b")) = some prev ∧
      UpdatePrometheusMetricsOnce c
        [(str "a.b", Metric.histogram ⟨1, 1, 0, 0, 0, 0, 0, 0, 0, 0⟩)] = (c, none)) := by
  refine ⟨by decide, by decide, ?_⟩
  exact failed_sample_construction_skips_silently _ (str "a.b") _ _ (by decide) (by decide)

/-- Claim C10: a collector is registered with the destination registry
before its first sample is built, so when that first construction fails
the collector sits in the cache and the registration trace with its
`metric` field still the nil zero value, and `Collect` then emits that
nil metric when the destination registry scrapes it. -/
theorem collector_registered_before_first_sample (c : PrometheusConfig) (nm : Str)
    (snap : HistogramSnapshot)
    (hl : mapLookup c.histograms (compositeKey c.nspace c.subsystem nm) = none)
    (hv : validMetricName (compositeKey c.nspace c.subsystem nm) = false) :
    mapLookup (outputPrometheusHistogram c nm snap).histograms
        (compositeKey c.nspace c.subsystem nm) = some ⟨none⟩ ∧
    (outputPrometheusHistogram c nm snap).events =
      c.events ++ [RegEvent.collector (compositeKey c.nspace c.subsystem nm)
        (str "Dummy")] ∧
    CustomCollector.CollectOut ⟨none⟩ = [none] := by
  rw [outputPrometheusHistogram_invalid_miss c nm snap hl hv]
  exact ⟨by simp, rfl, rfl⟩

/-- Witness for `collector_registered_before_first_sample`: a fresh
exporter flushing a histogram named `"a.b"`, whose raw composite key is
not a valid metric name. -/
theorem collector_registered_before_first_sample_witness :
    mapLookup (outputPrometheusHistogram (NewPrometheusProvider (str "n") (str "s"))
        (str "a.b") ⟨1, 1, 0, 0, 0, 0, 0, 0, 0, 0⟩).histograms
        (compositeKey (str "n") (str "s") (str "a.b")) = some ⟨none⟩ ∧
    (outputPrometheusHistogram (NewPrometheusProvider (str "n") (str "s"))
        (str "a.b") ⟨1, 1, 0, 0, 0, 0, 0, 0, 0, 0⟩).events =
      (NewPrometheusProvider (str "n") (str "s")).events ++
        [RegEvent.collector (compositeKey (str "n") (str "s") (str "a.b")) (str "Dummy")] ∧
    CustomCollector.CollectOut ⟨none⟩ = [none] :=
  collector_registered_before_first_sample (NewPrometheusProvider (str "n") (str "s"))
    (str "a.b") ⟨1, 1, 0, 0, 0, 0, 0, 0, 0, 0⟩ (by decide) (by decide)

/-- Claim C2 counterexample: flushing a fresh exporter whose registry
holds a single timer produces no distribution collector at all — the
histogram cache stays empty, no collector registration happens, and
exactly seven gauges exist — refuting the claimed eighth series (a
distribution built from the timer snapshot). -/
theorem timer_flush_no_distribution_counterexample :
    (applyOps (NewPrometheusProvider (str "n") (str "s"))
        [(str "t", Metric.timer ⟨1, 2, 3, 4, 5, 6, 7⟩)]).histograms = [] ∧
    collRegCount (applyOps (NewPrometheusProvider (str "n") (str "s"))
        [(str "t", Metric.timer ⟨1, 2, 3, 4, 5, 6, 7⟩)]).events
      (compositeKey (str "n") (str "s") (str "t")) = 0 ∧
    (applyOps (NewPrometheusProvider (str "n") (str "s"))
        [(str "t", Metric.timer ⟨1, 2, 3, 4, 5, 6, 7⟩)]).gauges.length = 7 := by
  decide

/-- Claim C2 (amended): one flush of a timer publishes exactly seven
destination series, all gauges: `name` holding the snapshot's rate1,
`name_mean`, `name_min` and `name_max` holding mean, min and max, and
`name_p95`, `name_p99`, `name_p999` holding the 0.95/0.99/0.999
percentiles converted through `time.Duration` (truncated toward zero);
no distribution collector is published for timers. -/
theorem timer_flush_publishes_seven_gauges (ns sub nm : Str) (s : TimerSnapshot) :
    (let c := (UpdatePrometheusMetricsOnce (NewPrometheusProvider ns sub)
        [(nm, Metric.timer s)]).1
     mapLookup c.gauges (compositeKey ns sub nm) = some s.rate1 ∧
      mapLookup c.gauges (compositeKey ns sub (nm ++ str "_mean")) = some s.mean ∧
      mapLookup c.gauges (compositeKey ns sub (nm ++ str "_min")) = some (s.min : Rat) ∧
      mapLookup c.gauges (compositeKey ns sub (nm ++ str "_max")) = some (s.max : Rat) ∧
      mapLookup c.gauges (compositeKey ns sub (nm ++ str "_p95")) =
        some ((ratTrunc s.p95 : Int) : Rat) ∧
      mapLookup c.gauges (compositeKey ns sub (nm ++ str "_p99")) =
        some ((ratTrunc s.p99 : Int) : Rat) ∧
      mapLookup c.gauges (compositeKey ns sub (nm ++ str "_p999")) =
        some ((ratTrunc s.p999 : Int) : Rat) ∧
      c.gauges.length = 7 ∧
      c.histograms = []) := by
  have h01 := compositeKey_ne_suffix ns sub nm (str "_mean") (by decide)
  have h02 := compositeKey_ne_suffix ns sub nm (str "_min") (by decide)
  have h03 := compositeKey_ne_suffix ns sub nm (str "_max") (by decide)
  have h04 := compositeKey_ne_suffix ns sub nm (str "_p95") (by decide)
  have h05 := compositeKey_ne_suffix ns sub nm (str "_p99") (by decide)
  have h06 := compositeKey_ne_suffix ns sub nm (str "_p999") (by decide)
  have h12 := compositeKey_suffix_ne ns sub nm (str "_mean") (str "_min") (by decide)
  have h13 := compositeKey_suffix_ne ns sub nm (str "_mean") (str "_max") (by decide)
  have h14 := compositeKey_suffix_ne ns sub nm (str "_mean") (str "_p95") (by decide)
  have h15 := compositeKey_suffix_ne ns sub nm (str "_mean") (str "_p99") (by decide)
  have h16 := compositeKey_suffix_ne ns sub nm (str "_mean") (str "_p999") (by decide)
  have h23 := compositeKey_suffix_ne ns sub nm (str "_min") (str "_max") (by decide)
  have h24 := compositeKey_suffix_ne ns sub nm (str "_min") (str "_p95") (by decide)
  have h25 := compositeKey_suffix_ne ns sub nm (str "_min") (str "_p99") (by decide)
  have h26 := compositeKey_suffix_ne ns sub nm (str "_min") (str "_p999") (by decide)
  have h34 := compositeKey_suffix_ne ns sub nm (str "_max") (str "_p95") (by decide)
  have h35 := compositeKey_suffix_ne ns sub nm (str "_max") (str "_p99") (by decide)
  have h36 := compositeKey_suffix_ne ns sub nm (str "_max") (str "_p999") (by decide)
  have h45 := compositeKey_suffix_ne ns sub nm (str "_p95") (str "_p99") (by decide)
  have h46 := compositeKey_suffix_ne ns sub nm (str "_p95") (str "_p999") (by decide)
  have h56 := compositeKey_suffix_ne ns sub nm (str "_p99") (str "_p999") (by decide)
  dsimp only
  simp only [UpdatePrometheusMetricsOnce, applyOps, List.foldl_cons, List.foldl_nil,
    processMetric]
  simp [gaugeFromNameAndValue, NewPrometheusProvider, mapLookup, mapInsert,
    h01, h02, h03, h04, h05, h06, h12, h13, h14, h15, h16, h23, h24, h25, h26,
    h34, h35, h36, h45, h46, h56]

/-- The (composite key, flattened exported name) pairs of the gauge
registrations in a trace, in order. -/
def gaugePairs : List RegEvent → List (Str × Str)
  | [] => []
  | RegEvent.gauge k f :: rest => (k, f) :: gaugePairs rest
  | RegEvent.collector _ _ :: rest => gaugePairs rest

/-- The composite keys of the collector registrations in a trace, in
order. -/
def collKeys : List RegEvent → List Str
  | [] => []
  | RegEvent.collector k _ :: rest => k :: collKeys rest
  | RegEvent.gauge _ _ :: rest => collKeys rest

/-- Occurrence count of a key in a list of keys. -/
def keyCount : List Str → Str → Nat
  | [], _ => 0
  | k :: rest, key => (if k = key then 1 else 0) + keyCount rest key

theorem keyCount_pos_of_mem (l : List Str) (a : Str) (h : a ∈ l) : 1 ≤ keyCount l a := by
  induction l with
  | nil => simp at h
  | cons k rest ih =>
    rw [List.mem_cons] at h
    rcases h with h | h
    · simp [keyCount, h.symm]
    · have := ih h
      simp only [keyCount]
      omega

theorem nodup_of_keyCount_le_one (l : List Str) (h : ∀ k, keyCount l k ≤ 1) : l.Nodup := by
  induction l with
  | nil => exact List.nodup_nil
  | cons a rest ih =>
    rw [List.nodup_cons]
    constructor
    · intro hmem
      have h1 := h a
      have h2 := keyCount_pos_of_mem rest a hmem
      simp [keyCount] at h1
      omega
    · refine ih ?_
      intro k
      have hk := h k
      simp only [keyCount] at hk
      omega

theorem keyCount_gaugePairs_fst (events : List RegEvent) (key : Str) :
    keyCount ((gaugePairs events).map Prod.fst) key = gaugeRegCount events key := by
  induction events with
  | nil => rfl
  | cons e rest ih =>
    cases e with
    | gauge k f => simp only [gaugePairs, List.map_cons, keyCount, ih, gaugeRegCount]
    | collector k d => simpa [gaugePairs, gaugeRegCount] using ih

theorem keyCount_collKeys (events : List RegEvent) (key : Str) :
    keyCount (collKeys events) key = collRegCount events key := by
  induction events with
  | nil => rfl
  | cons e rest ih =>
    cases e with
    | collector k d => simp only [collKeys, keyCount, ih, collRegCount]
    | gauge k f => simpa [collKeys, collRegCount] using ih

theorem mem_of_mem_gaugePairs (events : List RegEvent) (k fq : Str)
    (h : (k, fq) ∈ gaugePairs events) : RegEvent.gauge k fq ∈ events := by
  induction events with
  | nil => simp [gaugePairs] at h
  | cons e rest ih =>
    cases e with
    | gauge k' f' =>
      rw [gaugePairs, List.mem_cons] at h
      rcases h with h | h
      · rw [List.mem_cons]
        left
        rw [Prod.mk.injEq] at h
        rw [h.1, h.2]
      · exact List.mem_cons_of_mem _ (ih h)
    | collector k' d =>
      rw [gaugePairs] at h
      exact List.mem_cons_of_mem _ (ih h)

theorem two_keys_of_two_with_snd (l : List (Str × Str)) (fq : Str)
    (hnd : (l.map Prod.fst).Nodup)
    (h2 : 2 ≤ (l.filter (fun p => p.2 = fq)).length) :
    ∃ k1 k2, k1 ≠ k2 ∧ (k1, fq) ∈ l ∧ (k2, fq) ∈ l := by
  induction l with
  | nil => simp at h2
  | cons p rest ih =>
    rw [List.map_cons, List.nodup_cons] at hnd
    by_cases hp : p.2 = fq
    · have hfl : 1 ≤ (rest.filter (fun q => q.2 = fq)).length := by
        rw [List.filter_cons_of_pos (by simpa using hp)] at h2
        simpa using Nat.le_of_succ_le_succ h2
      obtain ⟨q, hqf⟩ := List.exists_mem_of_length_pos hfl
      rw [List.mem_filter] at hqf
      have hq2 : q.2 = fq := by simpa using hqf.2
      refine ⟨p.1, q.1, ?_, ?_, ?_⟩
      · intro hk
        exact hnd.1 (hk ▸ List.mem_map_of_mem Prod.fst hqf.1)
      · have : (p.1, fq) = p := by rw [← hp]
        rw [this]
        exact List.mem_cons_self p rest
      · have : (q.1, fq) = q := by rw [← hq2]
        rw [this]
        exact List.mem_cons_of_mem _ hqf.1
    · rw [List.filter_cons_of_neg (by simpa using hp)] at h2
      obtain ⟨k1, k2, hne, h1, hq⟩ := ih hnd.2 h2
      exact ⟨k1, k2, hne, List.mem_cons_of_mem _ h1, List.mem_cons_of_mem _ hq⟩

/-- Claim C5 counterexample: publishing the two distinct metric names
`"a.b"` and `"a-b"` gives two distinct composite keys, so both miss the
cache and both register — yet their flattened exported names coincide,
so a registration repeats an identity already presented to the
destination registry and the fatal duplicate branch of `MustRegister`
is reached. -/
theorem registration_duplicate_name_counterexample :
    duplicateIdentityReached (applyOps (NewPrometheusProvider (str "n") (str "s"))
        [(str "a.b", Metric.gaugeFloat64 1), (str "a-b", Metric.gaugeFloat64 2)]).events
      = true ∧
    compositeKey (str "n") (str "s") (str "a.b") ≠
      compositeKey (str "n") (str "s") (str "a-b") ∧
    gaugeFQName (str "n") (str "s") (str "a.b") =
      gaugeFQName (str "n") (str "s") (str "a-b") := by
  decide

/-- Claim C5 (amended): a destination-registry registration is attempted
exactly when the composite key is absent from the corresponding cache
(the per-key registration count equals cache presence), so no composite
key is ever registered twice as a gauge or twice as a collector; a
flattened exported name can nevertheless repeat, but only through a
flattening collision — any exported gauge name registered at least twice
was registered for two distinct composite keys. -/
theorem cache_registration_lockstep_amended (ns sub : Str) (ops : List (Str × Metric))
    (fq : Str) :
    (∀ key, gaugeRegCount (applyOps (NewPrometheusProvider ns sub) ops).events key =
        (if (mapLookup (applyOps (NewPrometheusProvider ns sub) ops).gauges key).isSome
          then 1 else 0) ∧
      collRegCount (applyOps (NewPrometheusProvider ns sub) ops).events key =
        (if (mapLookup (applyOps (NewPrometheusProvider ns sub) ops).histograms key).isSome
          then 1 else 0)) ∧
    ((gaugePairs (applyOps (NewPrometheusProvider ns sub) ops).events).map Prod.fst).Nodup ∧
    (collKeys (applyOps (NewPrometheusProvider ns sub) ops).events).Nodup ∧
    (2 ≤ ((gaugePairs (applyOps (NewPrometheusProvider ns sub) ops).events).filter
        (fun p => p.2 = fq)).length →
      ∃ k1 k2, k1 ≠ k2 ∧
        RegEvent.gauge k1 fq ∈ (applyOps (NewPrometheusProvider ns sub) ops).events ∧
        RegEvent.gauge k2 fq ∈ (applyOps (NewPrometheusProvider ns sub) ops).events) := by
  have inv := lockstep_reachable ns sub ops
  have hgnd : ((gaugePairs (applyOps (NewPrometheusProvider ns sub) ops).events).map
      Prod.fst).Nodup := by
    refine nodup_of_keyCount_le_one _ ?_
    intro key
    rw [keyCount_gaugePairs_fst, (inv key).1]
    split <;> omega
  refine ⟨inv, hgnd, ?_, ?_⟩
  · refine nodup_of_keyCount_le_one _ ?_
    intro key
    rw [keyCount_collKeys, (inv key).2]
    split <;> omega
  · intro h2
    obtain ⟨k1, k2, hne, h1, hq⟩ := two_keys_of_two_with_snd _ fq hgnd h2
    exact ⟨k1, k2, hne, mem_of_mem_gaugePairs _ _ _ h1, mem_of_mem_gaugePairs _ _ _ hq⟩

/-- Witness for `cache_registration_lockstep_amended` at the concrete
colliding trace of `"a.b"` and `"a-b"`, whose shared flattened exported
name is `"n_s_a_b"`. -/
theorem cache_registration_lockstep_amended_witness :
    2 ≤ ((gaugePairs (applyOps (NewPrometheusProvider (str "n") (str "s"))
        [(str "a.b", Metric.gaugeFloat64 1), (str "a-b", Metric.gaugeFloat64 2)]).events).filter
        (fun p => p.2 = str "n_s_a_b")).length ∧
    (∃ k1 k2, k1 ≠ k2 ∧
      RegEvent.gauge k1 (str "n_s_a_b") ∈
        (applyOps (NewPrometheusProvider (str "n") (str "s"))
          [(str "a.b", Metric.gaugeFloat64 1), (str "a-b", Metric.gaugeFloat64 2)]).events ∧
      RegEvent.gauge k2 (str "n_s_a_b") ∈
        (applyOps (NewPrometheusProvider (str "n") (str "s"))
          [(str "a.b", Metric.gaugeFloat64 1), (str "a-b", Metric.gaugeFloat64 2)]).events) :=
  ⟨by decide, (cache_registration_lockstep_amended (str "n") (str "s")
    [(str "a.b", Metric.gaugeFloat64 1), (str "a-b", Metric.gaugeFloat64 2)]
    (str "n_s_a_b")).2.2.2 (by decide)⟩
